import Mathlib

/-
Verification of the rust_roguelike repository: a shallow embedding of the
tile-map generator (src/src/map.rs), the Rect helper (declared as mod rect,
modelled from the spec), and the hellorust ECS world with its movement
systems (src/hellorust/src/main.rs), together with proofs and refutations
of the specified properties.
-/

set_option maxRecDepth 200000

namespace Roguelike

/-- Tile classification, from map.rs and hellorust/src/main.rs:
`enum TileType { Wall, Floor }`. -/
inductive TileType where
  | Wall
  | Floor
deriving DecidableEq

/-- The usize modulus: the source targets a 64-bit platform, where the
`as usize` cast and usize arithmetic wrap modulo 2^64. -/
def USIZE : Nat := 2 ^ 64

/-- `xy_idx` from map.rs and hellorust/src/main.rs:
`(y as usize * 80) + x as usize`.  The i32 → usize cast takes the value
modulo 2^64 (sign extension), and the product and sum wrap modulo 2^64
(release-mode semantics).  For 0 ≤ x and 0 ≤ y with y*80 + x < 2^64 this
is exactly y*80 + x. -/
def xy_idx (x y : Int) : Nat :=
  ((y.emod (USIZE : Int)).toNat * 80 + (x.emod (USIZE : Int)).toNat) % USIZE

/-- Modelled from the spec: rect.rs is declared (`mod rect`) but absent from
src/, so Rect follows spec §4.2: two corners (x1,y1)-(x2,y2). -/
structure Rect where
  x1 : Int
  y1 : Int
  x2 : Int
  y2 : Int
deriving DecidableEq

/-- Modelled from the spec: `Rect::new(x, y, w, h)` constructs with
x2 = x + w and y2 = y + h, no clamping. -/
def Rect.new (x y w h : Int) : Rect :=
  { x1 := x, y1 := y, x2 := x + w, y2 := y + h }

/-- Modelled from the spec: `intersect` returns true iff the closed
intervals overlap on both axes, boundary-inclusive via ≤ and ≥ on all four
edges. -/
def Rect.intersect (a b : Rect) : Bool :=
  decide (a.x1 ≤ b.x2 ∧ a.x2 ≥ b.x1 ∧ a.y1 ≤ b.y2 ∧ a.y2 ≥ b.y1)

/-- Modelled from the spec: `center()` returns ((x1+x2)/2, (y1+y2)/2) with
integer truncating division (Rust i32 division truncates toward zero, which
is `Int.div`). -/
def Rect.center (r : Rect) : Int × Int :=
  (Int.tdiv (r.x1 + r.x2) 2, Int.tdiv (r.y1 + r.y2) 2)

/-- A random source: an infinite stream of raw draws plus a cursor.  The
spec treats the RNG as an injected capability producing uniform integers in
a range; each primitive below maps the next raw draw into the documented
range, so that every sequence of in-range outputs is realized by some
stream and every stream realizes in-range outputs. -/
structure RNG where
  stream : Nat → Nat
  pos : Nat

/-- Draw the next raw value and advance the cursor. -/
def RNG.next (g : RNG) : Nat × RNG :=
  (g.stream g.pos, { g with pos := g.pos + 1 })

/-- rltk `roll_dice(1, t)`: a value in the inclusive range [1, t]
(for t > 0). -/
def RNG.rollDice1 (g : RNG) (t : Int) : Int × RNG :=
  let (v, g2) := g.next
  (1 + (v : Int) % t, g2)

/-- rltk `range(a, b)`: a value in the half-open range [a, b)
(for a < b). -/
def RNG.range (g : RNG) (a b : Int) : Int × RNG :=
  let (v, g2) := g.next
  (a + (v : Int) % (b - a), g2)

/-- Fuelled driver for Rust `for v in a ..= b` loops over integers:
`intFor f n a acc` applies `f` at `a, a+1, ..., a+n-1`. -/
def intFor {α : Type} (f : α → Int → α) : Nat → Int → α → α
  | 0, _, acc => acc
  | n + 1, x, acc => intFor f n (x + 1) (f acc x)

/-- Run `f` over the inclusive integer range `a ..= b`. -/
def foldRangeIncl {α : Type} (f : α → Int → α) (a b : Int) (init : α) : α :=
  intFor f (b - a + 1).toNat a init

/-- `apply_room_to_map` from map.rs: for y in room.y1+1 ..= room.y2, for x
in room.x1+1 ..= room.x2, set map[xy_idx(x, y)] = Floor.  The Rust write is
unchecked (it would panic out of bounds); every call made by the generator
below is in bounds, where `List.set` agrees with it. -/
def apply_room_to_map (room : Rect) (m : List TileType) : List TileType :=
  foldRangeIncl
    (fun acc y =>
      foldRangeIncl (fun acc2 x => acc2.set (xy_idx x y) TileType.Floor)
        (room.x1 + 1) room.x2 acc)
    (room.y1 + 1) room.y2 m

/-- The guarded write shared by both tunnel loops in map.rs:
`if idx > 0 && idx < 80 * 50 { map[idx] = Floor }`. -/
def tunnelWrite (acc : List TileType) (idx : Nat) : List TileType :=
  if 0 < idx ∧ idx < 80 * 50 then acc.set idx TileType.Floor else acc

/-- `apply_horizontal_tunnel` from map.rs: for x in min(x1,x2) ..= max(x1,x2),
guarded write of Floor at xy_idx(x, y). -/
def apply_horizontal_tunnel (m : List TileType) (x1 x2 y : Int) : List TileType :=
  foldRangeIncl (fun acc x => tunnelWrite acc (xy_idx x y)) (min x1 x2) (max x1 x2) m

/-- `apply_vertical_tunnel` from map.rs: for y in min(y1,y2) ..= max(y1,y2),
guarded write of Floor at xy_idx(x, y). -/
def apply_vertical_tunnel (m : List TileType) (y1 y2 x : Int) : List TileType :=
  foldRangeIncl (fun acc y => tunnelWrite acc (xy_idx x y)) (min y1 y2) (max y1 y2) m

/-- One iteration of the room-placement loop in
`new_map_rooms_and_corridors` (map.rs lines 92-118), over the accepted
rooms, the grid and the random source: draw w, h in [6,10), origin via
roll_dice minus one; reject the candidate if it intersects any accepted
room; otherwise carve it, and if it is not the first room carve the two
corridor calls exactly as written in the source
(`apply_horizontal_tunnel(prev_x, new_x, prev_y)` then
`apply_horizontal_tunnel(prev_y, prev_y, new_x)` when range(0,2) == 1, else
`apply_vertical_tunnel(prev_y, new_y, prev_x)` then
`apply_vertical_tunnel(prev_x, prev_x, new_y)`), then push the room. -/
def genStep (rooms : List Rect) (m : List TileType) (g : RNG) :
    List Rect × List TileType × RNG :=
  let (w, r1) := g.range 6 10
  let (h, r2) := r1.range 6 10
  let (xr, r3) := r2.rollDice1 (80 - w - 1)
  let x := xr - 1
  let (yr, r4) := r3.rollDice1 (50 - h - 1)
  let y := yr - 1
  let new_room := Rect.new x y w h
  let ok := !(rooms.any fun other => new_room.intersect other)
  if ok then
    let m1 := apply_room_to_map new_room m
    if rooms.isEmpty then
      (rooms ++ [new_room], m1, r4)
    else
      let c := new_room.center
      let pc := (rooms.getLastD (Rect.new 0 0 0 0)).center
      let (d, r5) := r4.range 0 2
      let m2 :=
        if d == 1 then
          apply_horizontal_tunnel (apply_horizontal_tunnel m1 pc.1 c.1 pc.2) pc.2 pc.2 c.1
        else
          apply_vertical_tunnel (apply_vertical_tunnel m1 pc.2 c.2 pc.1) pc.1 pc.1 c.2
      (rooms ++ [new_room], m2, r5)
  else
    (rooms, m, r4)

/-- Iterate the placement loop, returning the rooms and the grid. -/
def genLoop : Nat → List Rect → List TileType → RNG → List Rect × List TileType
  | 0, rooms, m, _ => (rooms, m)
  | n + 1, rooms, m, g =>
      match genStep rooms m g with
      | (rooms2, m2, g2) => genLoop n rooms2 m2 g2

/-- `new_map_rooms_and_corridors` from map.rs, parameterized by the random
source: start from an all-Wall 80×50 grid and an empty room list, run
MAX_ROOMS = 30 placement attempts, and return the accepted rooms and the
finished grid. -/
def new_map_rooms_and_corridors (s : Nat → Nat) : List Rect × List TileType :=
  genLoop 30 [] (List.replicate (80 * 50) TileType.Wall) { stream := s, pos := 0 }

/-- A concrete random source: first room Rect(0,0,6,6) with center (3,3),
second room Rect(46,40,6,6) with center (49,43), horizontal-first corridor
branch; every later candidate repeats Rect(0,0,6,6), which intersects the
first room and is rejected. -/
def s0 : Nat → Nat :=
  fun i => if i = 6 then 46 else if i = 7 then 40 else if i = 8 then 1 else 0

/-- A concrete random source: first room Rect(0,0,6,6) with center (3,3),
second room Rect(8,0,6,6) with center (11,3), horizontal-first corridor
branch; every later candidate is rejected. -/
def s1 : Nat → Nat :=
  fun i => if i = 6 then 8 else if i = 8 then 1 else 0

/-- `Position { x: i32, y: i32 }` from hellorust/src/main.rs. -/
structure Position where
  x : Int
  y : Int
deriving DecidableEq

/-- One entity of the hellorust world, as the set of components it may
hold: Position, the Player marker, the LeftMover marker, and the
Renderable payload.  The Renderable data (glyph and RGB colors) is only
ever copied, never inspected, by the systems under verification, so its
payload type is a parameter. -/
structure Entity (R : Type) where
  pos : Option Position
  player : Bool
  leftMover : Bool
  renderable : Option R
deriving DecidableEq

/-- The key codes distinguished by `player_input`; every other member of
rltk's VirtualKeyCode enum is represented by `other` with an arbitrary
code. -/
inductive VirtualKeyCode where
  | Left
  | Right
  | Up
  | Down
  | other (code : Nat)
deriving DecidableEq

/-- The ECS world of hellorust/src/main.rs: the entity store plus the
`Vec<TileType>` map resource. -/
structure World (R : Type) where
  entities : List (Entity R)
  grid : List TileType
deriving DecidableEq

/-- `LeftWalker::run`: for every entity holding both LeftMover and
Position, `pos.x -= 1; if pos.x < 0 { pos.x = 79; }`. -/
def LeftWalker.run {R : Type} (es : List (Entity R)) : List (Entity R) :=
  es.map fun e =>
    match e.leftMover, e.pos with
    | true, some p =>
        { e with pos := some { x := if p.x - 1 < 0 then 79 else p.x - 1, y := p.y } }
    | _, _ => e

/-- The loop body of `try_move_player` over the joined (Player, Position)
entities: compute `destination_idx = xy_idx(pos.x + dx, pos.y + dy)`, look
it up in the map (an out-of-bounds index panics in Rust, modelled as
`none`), and if the tile is not Wall commit the clamped move. -/
def moveEntities {R : Type} (m : List TileType) (dx dy : Int) :
    List (Entity R) → Option (List (Entity R))
  | [] => some []
  | e :: es =>
    match e.player, e.pos with
    | true, some p =>
      match m.get? (xy_idx (p.x + dx) (p.y + dy)) with
      | none => none
      | some t =>
        let e2 :=
          if t ≠ TileType.Wall then
            { e with pos := some { x := min 79 (max 0 (p.x + dx)),
                                   y := min 49 (max 0 (p.y + dy)) } }
          else e
        Option.map (fun rest => e2 :: rest) (moveEntities m dx dy es)
    | _, _ => Option.map (fun rest => e :: rest) (moveEntities m dx dy es)

/-- `try_move_player(delta_x, delta_y, ecs)` from hellorust/src/main.rs. -/
def try_move_player {R : Type} (dx dy : Int) (w : World R) : Option (World R) :=
  Option.map (fun es => { w with entities := es }) (moveEntities w.grid dx dy w.entities)

/-- `player_input` from hellorust/src/main.rs: dispatch on the optional
key; Left/Right/Up/Down move with the unit delta, no key or any other key
does nothing. -/
def player_input {R : Type} (key : Option VirtualKeyCode) (w : World R) :
    Option (World R) :=
  match key with
  | none => some w
  | some VirtualKeyCode.Left => try_move_player (-1) 0 w
  | some VirtualKeyCode.Right => try_move_player 1 0 w
  | some VirtualKeyCode.Up => try_move_player 0 (-1) w
  | some VirtualKeyCode.Down => try_move_player 0 1 w
  | some (VirtualKeyCode.other _) => some w

/-- `State::run_systems` from hellorust/src/main.rs: its body only calls
`self.ecs.maintain()`; no system is dispatched, and since no entity
creation or destruction is ever queued during a tick, maintain leaves the
store unchanged. -/
def run_systems {R : Type} (w : World R) : World R :=
  w

/-- `GameState::tick` from hellorust/src/main.rs: clear the canvas, run
`player_input`, run `run_systems`, then draw the map and the
(Position, Renderable) entities.  The drawing calls only write to the
terminal, so the world state after a tick is run_systems after
player_input. -/
def tick {R : Type} (key : Option VirtualKeyCode) (w : World R) :
    Option (World R) :=
  Option.map run_systems (player_input key w)

/-- The all-Floor 80×50 grid, used for concrete scenarios. -/
def floorGrid : List TileType :=
  List.replicate (80 * 50) TileType.Floor

/-- A world holding a single non-player entity at (10,5) carrying the
LeftMover tag. -/
def entLM : Entity Unit :=
  { pos := some { x := 10, y := 5 }, player := false, leftMover := true,
    renderable := none }

/-- The world containing only `entLM` over the all-Floor grid. -/
def wLM : World Unit :=
  { entities := [entLM], grid := floorGrid }

/-- A world holding a single player entity standing at the origin (0,0). -/
def wOrigin : World Unit :=
  { entities := [{ pos := some { x := 0, y := 0 }, player := true,
                   leftMover := false, renderable := none }],
    grid := floorGrid }

/-- A three-entity store: LeftMover entities at x = 0 and x = 10 and an
untagged entity. -/
def esW : List (Entity Unit) :=
  [{ pos := some { x := 0, y := 5 }, player := false, leftMover := true,
     renderable := none },
   { pos := some { x := 10, y := 5 }, player := false, leftMover := true,
     renderable := none },
   { pos := some { x := 3, y := 4 }, player := false, leftMover := false,
     renderable := none }]

/-- Symmetric non-overlap of a pair of accepted rooms. -/
def pairOk (a b : Rect) : Prop :=
  a.intersect b = false ∧ b.intersect a = false

/-- The room-list invariant maintained by the placement loop: all pairs of
accepted rooms are mutually non-intersecting. -/
def RoomsOk (rs : List Rect) : Prop :=
  List.Pairwise pairOk rs

/-- A single player entity standing at (5,5). -/
def e5 : Entity Unit :=
  { pos := some { x := 5, y := 5 }, player := true, leftMover := false,
    renderable := none }

/-- The all-Floor grid with a Wall at (6,5). -/
def mWall65 : List TileType :=
  floorGrid.set (xy_idx 6 5) TileType.Wall

section Systems

variable {R : Type}

/-- If `moveEntities` succeeds, it preserves the number of entities and
leaves every non-player entity exactly where it was. -/
lemma moveEntities_preserves (m : List TileType) (dx dy : Int) :
    ∀ (es es2 : List (Entity R)), moveEntities m dx dy es = some es2 →
      es2.length = es.length ∧
      ∀ (i : Nat) (e : Entity R), es[i]? = some e → e.player = false →
        es2[i]? = some e := by
  intro es
  induction es with
  | nil =>
    intro es2 h
    simp [moveEntities] at h
    subst h
    exact ⟨rfl, by intro i e h _; simp at h⟩
  | cons a as ih =>
    intro es2 h
    by_cases hpl : a.player = true
    · rcases hpos : a.pos with _ | p
      · rw [show moveEntities m dx dy (a :: as) =
              Option.map (fun rest => a :: rest) (moveEntities m dx dy as) by
            simp [moveEntities, hpl, hpos]] at h
        rcases hrec : moveEntities m dx dy as with _ | rest
        · rw [hrec] at h; cases h
        · rw [hrec] at h
          simp at h
          rcases ih rest hrec with ⟨hlen, hpres⟩
          subst h
          refine ⟨by simp [hlen], ?_⟩
          intro i e hi hplf
          cases i with
          | zero => simp at hi ⊢; exact hi
          | succ n => simp at hi ⊢; exact hpres n e hi hplf
      · rcases hlook : m[xy_idx (p.x + dx) (p.y + dy)]? with _ | t
        · rw [show moveEntities m dx dy (a :: as) = none by
              simp [moveEntities, hpl, hpos, List.get?_eq_getElem?, hlook]] at h
          cases h
        · rw [show moveEntities m dx dy (a :: as) =
                Option.map
                  (fun rest =>
                    (if t ≠ TileType.Wall then
                      { a with pos := some { x := min 79 (max 0 (p.x + dx)),
                                             y := min 49 (max 0 (p.y + dy)) } }
                     else a) :: rest)
                  (moveEntities m dx dy as) by
              simp only [moveEntities, hpl, hpos, List.get?_eq_getElem?, hlook]] at h
          rcases hrec : moveEntities m dx dy as with _ | rest
          · rw [hrec] at h; cases h
          · rw [hrec] at h
            simp at h
            rcases ih rest hrec with ⟨hlen, hpres⟩
            subst h
            refine ⟨by simp [hlen], ?_⟩
            intro i e hi hplf
            cases i with
            | zero =>
              exfalso
              cases t with
              | Wall => simp at hi; simp_all
              | Floor => simp at hi; simp_all
            | succ n => simp at hi ⊢; exact hpres n e hi hplf
    · have hpl2 : a.player = false := by
        cases hb : a.player
        · rfl
        · exact absurd hb hpl
      have hred : moveEntities m dx dy (a :: as) =
          Option.map (fun rest => a :: rest) (moveEntities m dx dy as) := by
        rcases hpos : a.pos with _ | p <;> simp [moveEntities, hpl2, hpos]
      rw [hred] at h
      rcases hrec : moveEntities m dx dy as with _ | rest
      · rw [hrec] at h; cases h
      · rw [hrec] at h
        simp at h
        rcases ih rest hrec with ⟨hlen, hpres⟩
        subst h
        refine ⟨by simp [hlen], ?_⟩
        intro i e hi hplf
        cases i with
        | zero => simp at hi ⊢; exact hi
        | succ n => simp at hi ⊢; exact hpres n e hi hplf

/-- If some joined (Player, Position) entity's destination index falls
outside the map, the whole `try_move_player` loop faults (the Rust
indexing panics). -/
lemma moveEntities_fault (m : List TileType) (dx dy : Int) :
    ∀ (es : List (Entity R)) (e : Entity R) (p : Position), e ∈ es →
      e.player = true → e.pos = some p →
      m[xy_idx (p.x + dx) (p.y + dy)]? = none →
      moveEntities m dx dy es = none := by
  intro es
  induction es with
  | nil => intro e p h; cases h
  | cons a as ih =>
    intro e p hmem hpl hpos hlook
    rcases List.mem_cons.mp hmem with h | h
    · subst h
      simp [moveEntities, hpl, hpos, List.get?_eq_getElem?, hlook]
    · have hrec := ih e p h hpl hpos hlook
      by_cases hapl : a.player = true
      · rcases hapos : a.pos with _ | q
        · simp [moveEntities, hapl, hapos, hrec]
        · rcases halook : m[xy_idx (q.x + dx) (q.y + dy)]? with _ | t
          · simp [moveEntities, hapl, hapos, List.get?_eq_getElem?, halook]
          · simp [moveEntities, hapl, hapos, List.get?_eq_getElem?, halook, hrec]
      · have hapl2 : a.player = false := by
          cases hb : a.player
          · rfl
          · exact absurd hb hapl
        rcases hapos : a.pos with _ | q <;>
          simp [moveEntities, hapl2, hapos, hrec]

end Systems

/-- C8: one run of the LeftWalker system decrements x by 1 for every
entity holding both LeftMover and Position, wrapping to 79 when x becomes
negative; entities lacking either component, and all other components, are
unchanged. -/
theorem left_walker_step_spec {R : Type} (es : List (Entity R)) (i : Nat)
    (e : Entity R) (he : es[i]? = some e) :
    (LeftWalker.run es).length = es.length ∧
    (∀ p : Position, e.leftMover = true → e.pos = some p →
      (LeftWalker.run es)[i]? =
        some { e with pos := some { x := if p.x - 1 < 0 then 79 else p.x - 1,
                                    y := p.y } }) ∧
    (e.leftMover = false → (LeftWalker.run es)[i]? = some e) ∧
    (e.pos = none → (LeftWalker.run es)[i]? = some e) := by
  refine ⟨by simp [LeftWalker.run], ?_, ?_, ?_⟩
  · intro p hlm hp
    simp [LeftWalker.run, List.getElem?_map, he, hlm, hp]
  · intro hlm
    simp only [LeftWalker.run, List.getElem?_map, he, Option.map_some]
    rcases hp : e.pos with _ | p <;> simp [hlm, hp]
  · intro hp
    simp only [LeftWalker.run, List.getElem?_map, he, Option.map_some]
    rcases hlm : e.leftMover with _ | _ <;> simp [hlm, hp]

/-- Concrete instance of C8: with entities at x = 0 and x = 10 holding
LeftMover, one run moves them to x = 79 and x = 9 and leaves the tagless
entity alone. -/
theorem left_walker_step_spec_witness :
    (LeftWalker.run esW)[0]? =
      some { pos := some { x := 79, y := 5 }, player := false, leftMover := true,
             renderable := (none : Option Unit) } ∧
    (LeftWalker.run esW)[1]? =
      some { pos := some { x := 9, y := 5 }, player := false, leftMover := true,
             renderable := (none : Option Unit) } ∧
    (LeftWalker.run esW)[2]? =
      some { pos := some { x := 3, y := 4 }, player := false, leftMover := false,
             renderable := (none : Option Unit) } := by
  refine ⟨?_, ?_, ?_⟩
  · have h := (left_walker_step_spec esW 0
      { pos := some { x := 0, y := 5 }, player := false, leftMover := true,
        renderable := none } rfl).2.1 { x := 0, y := 5 } rfl rfl
    simpa using h
  · have h := (left_walker_step_spec esW 1
      { pos := some { x := 10, y := 5 }, player := false, leftMover := true,
        renderable := none } rfl).2.1 { x := 10, y := 5 } rfl rfl
    simpa using h
  · have h := (left_walker_step_spec esW 2
      { pos := some { x := 3, y := 4 }, player := false, leftMover := false,
        renderable := none } rfl).2.2.1 rfl
    simpa using h

/-- C9: on a non-directional key event, or on no key event, player_input
leaves the world entirely unchanged. -/
theorem ignored_keys_leave_world {R : Type} (key : Option VirtualKeyCode)
    (w : World R)
    (h : key = none ∨ ∃ n, key = some (VirtualKeyCode.other n)) :
    player_input key w = some w := by
  rcases h with h | ⟨n, h⟩ <;> subst h <;> rfl

/-- Concrete instance of C9: no key, and a non-directional key, both leave
the world unchanged. -/
theorem ignored_keys_leave_world_witness :
    player_input none wLM = some wLM ∧
    player_input (some (VirtualKeyCode.other 57)) wLM = some wLM :=
  ⟨ignored_keys_leave_world none wLM (Or.inl rfl),
   ignored_keys_leave_world (some (VirtualKeyCode.other 57)) wLM
     (Or.inr ⟨57, rfl⟩)⟩

/-- C5 counterexample: a tick with no key event leaves the world with a
LeftMover entity at x = 10 completely unchanged — its x is not
decremented, because run_systems only calls maintain and the LeftWalker
system is never dispatched. -/
theorem tick_skips_left_walker :
    tick none wLM = some wLM ∧
    wLM.entities[0]? = some entLM ∧
    entLM.leftMover = true ∧
    entLM.pos = some { x := 10, y := 5 } :=
  ⟨rfl, rfl, rfl, rfl⟩

/-- C5 as amended: a tick applies player_input, then run_systems (which
only maintains, dispatching no system), then the render pass; no
autonomous system runs, so a tick without a key event changes nothing, the
entity count is preserved, and every non-player entity — in particular
every LeftMover entity — is untouched. -/
theorem tick_runs_no_autonomous_system {R : Type}
    (key : Option VirtualKeyCode) (w w2 : World R)
    (h : tick key w = some w2) :
    (key = none → w2 = w) ∧
    w2.entities.length = w.entities.length ∧
    w2.grid = w.grid ∧
    ∀ (i : Nat) (e : Entity R), w.entities[i]? = some e → e.player = false →
      w2.entities[i]? = some e := by
  have hgen : player_input key w = some w2 := by
    rw [tick] at h
    rcases Option.map_eq_some'.mp h with ⟨w3, hp, hw⟩
    rw [hp]
    exact congrArg some hw
  have key2 : (∃ es2 dx dy, moveEntities w.grid dx dy w.entities = some es2 ∧
        w2 = { w with entities := es2 }) ∨ w2 = w := by
    cases key with
    | none =>
      rw [player_input] at hgen
      simp at hgen
      exact Or.inr hgen.symm
    | some k =>
      cases k with
      | Left =>
        rw [player_input, try_move_player] at hgen
        rcases hm : moveEntities w.grid (-1) 0 w.entities with _ | es2
        · rw [hm] at hgen; cases hgen
        · rw [hm] at hgen; simp at hgen
          exact Or.inl ⟨es2, -1, 0, hm, hgen.symm⟩
      | Right =>
        rw [player_input, try_move_player] at hgen
        rcases hm : moveEntities w.grid 1 0 w.entities with _ | es2
        · rw [hm] at hgen; cases hgen
        · rw [hm] at hgen; simp at hgen
          exact Or.inl ⟨es2, 1, 0, hm, hgen.symm⟩
      | Up =>
        rw [player_input, try_move_player] at hgen
        rcases hm : moveEntities w.grid 0 (-1) w.entities with _ | es2
        · rw [hm] at hgen; cases hgen
        · rw [hm] at hgen; simp at hgen
          exact Or.inl ⟨es2, 0, -1, hm, hgen.symm⟩
      | Down =>
        rw [player_input, try_move_player] at hgen
        rcases hm : moveEntities w.grid 0 1 w.entities with _ | es2
        · rw [hm] at hgen; cases hgen
        · rw [hm] at hgen; simp at hgen
          exact Or.inl ⟨es2, 0, 1, hm, hgen.symm⟩
      | other n =>
        rw [player_input] at hgen
        simp at hgen
        exact Or.inr hgen.symm
  have hkeynone : key = none → w2 = w := by
    intro hk
    subst hk
    rw [player_input] at hgen
    simp at hgen
    exact hgen.symm
  rcases key2 with ⟨es2, dx, dy, hm, hw2⟩ | hw2
  · subst hw2
    rcases moveEntities_preserves w.grid dx dy w.entities es2 hm with ⟨hl, hp⟩
    exact ⟨hkeynone, hl, rfl, hp⟩
  · subst hw2
    exact ⟨hkeynone, rfl, rfl, fun i e hi _ => hi⟩

/-- Concrete instance of C5 as amended: applying the tick theorem to the
LeftMover world with no key shows the tagged entity is reported
unchanged. -/
theorem tick_runs_no_autonomous_system_witness :
    wLM.entities[0]? = some entLM :=
  (tick_runs_no_autonomous_system none wLM wLM rfl).2.2.2 0 entLM rfl rfl

/-- C3 counterexample: with the player standing at (0,0) over an all-Floor
map, processing a Left key (and likewise an Up key) does not complete with
the position clamped to (0,0): the destination index wraps through the
usize cast to a value far beyond the 4000-entry map, and the indexing
faults (a Rust panic), modelled as `none`. -/
theorem move_left_at_origin_panics :
    player_input (some VirtualKeyCode.Left) wOrigin = none ∧
    player_input (some VirtualKeyCode.Up) wOrigin = none := by
  constructor <;> rfl

/-- C3 as amended: for any world whose map is the 4000-entry grid and
which holds a player entity at (0,0), a Left or Up key faults in
`try_move_player`: the destination coordinate is -1, the i32 → usize cast
wraps it to at least 2^64 - 80, the map lookup is out of bounds and the
operation panics before any clamping is applied, so no position update
occurs at all. -/
theorem move_at_origin_faults {R : Type} (w : World R) (e : Entity R)
    (he : e ∈ w.entities) (hpl : e.player = true)
    (hpos : e.pos = some { x := 0, y := 0 })
    (hm : w.grid.length = 80 * 50) :
    player_input (some VirtualKeyCode.Left) w = none ∧
    player_input (some VirtualKeyCode.Up) w = none := by
  constructor
  · have hidx : xy_idx ((0 : Int) + (-1)) ((0 : Int) + 0) = USIZE - 1 := by decide
    have hnone : w.grid[xy_idx ((0 : Int) + (-1)) ((0 : Int) + 0)]? = none := by
      apply List.getElem?_eq_none
      rw [hm, hidx]
      decide
    have hfault := moveEntities_fault w.grid (-1) 0 w.entities e
      { x := 0, y := 0 } he hpl hpos hnone
    rw [player_input, try_move_player, hfault]
    rfl
  · have hidx : xy_idx ((0 : Int) + 0) ((0 : Int) + (-1)) = USIZE - 80 := by decide
    have hnone : w.grid[xy_idx ((0 : Int) + 0) ((0 : Int) + (-1))]? = none := by
      apply List.getElem?_eq_none
      rw [hm, hidx]
      decide
    have hfault := moveEntities_fault w.grid 0 (-1) w.entities e
      { x := 0, y := 0 } he hpl hpos hnone
    rw [player_input, try_move_player, hfault]
    rfl

/-- Concrete instance of C3 as amended: the fault theorem applied to the
single-player world at the origin. -/
theorem move_at_origin_faults_witness :
    player_input (some VirtualKeyCode.Up) wOrigin = none :=
  (move_at_origin_faults wOrigin
    { pos := some { x := 0, y := 0 }, player := true, leftMover := false,
      renderable := none }
    (List.mem_singleton.mpr rfl) rfl rfl
    (List.length_replicate (80 * 50) TileType.Floor)).2

/-- C7: on a directional key, the player entity's destination cell
(position plus the unit delta) is looked up in the tile grid; if that tile
is Wall the move is rejected and the position is unchanged, and if it is
Floor the move is committed with the result clamped to [0,79] × [0,49]. -/
theorem player_move_checks_destination {R : Type} (e : Entity R)
    (p : Position) (m : List TileType) (key : VirtualKeyCode) (dx dy : Int)
    (hk : (key = VirtualKeyCode.Left ∧ dx = -1 ∧ dy = 0) ∨
          (key = VirtualKeyCode.Right ∧ dx = 1 ∧ dy = 0) ∨
          (key = VirtualKeyCode.Up ∧ dx = 0 ∧ dy = -1) ∨
          (key = VirtualKeyCode.Down ∧ dx = 0 ∧ dy = 1))
    (hpl : e.player = true) (hpos : e.pos = some p) :
    (m.get? (xy_idx (p.x + dx) (p.y + dy)) = some TileType.Wall →
      player_input (some key) { entities := [e], grid := m } =
        some { entities := [e], grid := m }) ∧
    (m.get? (xy_idx (p.x + dx) (p.y + dy)) = some TileType.Floor →
      player_input (some key) { entities := [e], grid := m } =
        some { entities :=
                 [{ e with pos := some { x := min 79 (max 0 (p.x + dx)),
                                         y := min 49 (max 0 (p.y + dy)) } }],
               grid := m }) := by
  rcases hk with ⟨hkey, hdx, hdy⟩ | ⟨hkey, hdx, hdy⟩ | ⟨hkey, hdx, hdy⟩ |
    ⟨hkey, hdx, hdy⟩ <;> subst hkey <;> subst hdx <;> subst hdy <;>
  constructor <;> intro hlook <;>
    simp [List.get?_eq_getElem?] at hlook <;>
    simp [player_input, try_move_player, moveEntities, hpl, hpos,
      List.get?_eq_getElem?, hlook]

/-- The spec-modelled overlap test is symmetric. -/
lemma intersect_symm (a b : Rect) : a.intersect b = b.intersect a := by
  unfold Rect.intersect
  rw [decide_eq_decide]
  constructor
  · rintro ⟨h1, h2, h3, h4⟩
    exact ⟨h2, h1, h4, h3⟩
  · rintro ⟨h1, h2, h3, h4⟩
    exact ⟨h2, h1, h4, h3⟩

/-- Unfolding one iteration of the placement loop. -/
lemma genLoop_succ (n : Nat) (rooms : List Rect) (m : List TileType)
    (g : RNG) :
    genLoop (n + 1) rooms m g =
      match genStep rooms m g with
      | (rooms2, m2, g2) => genLoop n rooms2 m2 g2 := rfl

/-- One placement attempt either leaves the accepted rooms unchanged
(candidate rejected) or appends one room that intersects none of the
previously accepted rooms. -/
lemma genStep_rooms (rooms : List Rect) (m : List TileType) (g : RNG) :
    (genStep rooms m g).1 = rooms ∨
    ∃ r, (genStep rooms m g).1 = rooms ++ [r] ∧
         ∀ q ∈ rooms, r.intersect q = false := by
  simp only [genStep]
  split
  · rename_i hok
    split <;>
      (refine Or.inr ⟨_, rfl, ?_⟩
       intro q hq
       have h2 := List.any_eq_false.mp (by simpa using hok) q hq
       simpa using h2)
  · exact Or.inl rfl

/-- If the accepted list is still empty, the attempt is necessarily
accepted: the candidate intersects nothing, so the result is a singleton. -/
lemma genStep_of_nil (rooms : List Rect) (m : List TileType) (g : RNG)
    (h : rooms = []) :
    ∃ r, (genStep rooms m g).1 = [r] := by
  simp only [genStep]
  split
  · split <;> exact ⟨_, by rw [h]; rfl⟩
  · rename_i hok
    rw [h] at hok
    simp at hok

/-- Any property of the accepted room list preserved by one attempt is
preserved by the whole loop. -/
lemma genLoop_inv {P : List Rect → Prop}
    (hstep : ∀ rooms m g, P rooms → P (genStep rooms m g).1) :
    ∀ (n : Nat) (rooms : List Rect) (m : List TileType) (g : RNG),
      P rooms → P (genLoop n rooms m g).1 := by
  intro n
  induction n with
  | zero => intro rooms m g hp; exact hp
  | succ k ih =>
    intro rooms m g hp
    have hs := hstep rooms m g hp
    rw [genLoop_succ]
    rcases hg : genStep rooms m g with ⟨r2, m2, g2⟩
    rw [hg] at hs
    exact ih r2 m2 g2 hs

/-- One placement attempt preserves mutual non-overlap of the accepted
rooms. -/
lemma genStep_roomsOk (rooms : List Rect) (m : List TileType) (g : RNG)
    (h : RoomsOk rooms) : RoomsOk (genStep rooms m g).1 := by
  rcases genStep_rooms rooms m g with he | ⟨r, he, hint⟩
  · rw [he]; exact h
  · rw [he]
    rw [RoomsOk, List.pairwise_append]
    refine ⟨h, List.pairwise_singleton _ _, ?_⟩
    intro a ha b hb
    rw [List.mem_singleton] at hb
    subst hb
    exact ⟨by rw [intersect_symm]; exact hint a ha, hint a ha⟩

/-- C6: for every random source, no two distinct accepted rooms returned
by new_map_rooms_and_corridors intersect. -/
theorem accepted_rooms_disjoint (s : Nat → Nat) (i j : Nat) (ri rj : Rect)
    (hi : (new_map_rooms_and_corridors s).1[i]? = some ri)
    (hj : (new_map_rooms_and_corridors s).1[j]? = some rj)
    (hne : i ≠ j) : ri.intersect rj = false := by
  have hok : RoomsOk (new_map_rooms_and_corridors s).1 := by
    simp only [new_map_rooms_and_corridors]
    exact genLoop_inv (P := RoomsOk) genStep_roomsOk 30 [] _ _
      List.Pairwise.nil
  rw [List.getElem?_eq_some] at hi hj
  rcases hi with ⟨hli, hgi⟩
  rcases hj with ⟨hlj, hgj⟩
  have hpw := List.pairwise_iff_get.mp hok
  rcases Nat.lt_or_ge i j with hij | hij
  · have hp := hpw ⟨i, hli⟩ ⟨j, hlj⟩ hij
    rw [List.get_eq_getElem, List.get_eq_getElem] at hp
    rw [hgi, hgj] at hp
    exact hp.1
  · have hji : j < i := Nat.lt_of_le_of_ne hij (Ne.symm hne)
    have hp := hpw ⟨j, hlj⟩ ⟨i, hli⟩ hji
    rw [List.get_eq_getElem, List.get_eq_getElem] at hp
    rw [hgi, hgj] at hp
    exact hp.2

/-- Concrete instance of C6: the two rooms accepted under the source s1 do
not intersect. -/
theorem accepted_rooms_disjoint_witness :
    (Rect.mk 0 0 6 6).intersect (Rect.mk 8 0 14 6) = false :=
  accepted_rooms_disjoint s1 0 1 (Rect.mk 0 0 6 6) (Rect.mk 8 0 14 6)
    (by decide) (by decide) (by decide)

/-- C10: for every random source the generator accepts at least one room
(the first candidate has nothing to intersect), so the startup access to
rooms[0] and the player placement at rooms[0].center() cannot fail. -/
theorem generator_rooms_nonempty (s : Nat → Nat) :
    (new_map_rooms_and_corridors s).1 ≠ [] := by
  have hstep : ∀ (rooms : List Rect) (m : List TileType) (g : RNG),
      rooms ≠ [] → (genStep rooms m g).1 ≠ [] := by
    intro rooms m g h
    rcases genStep_rooms rooms m g with he | ⟨r, he, _⟩
    · rw [he]; exact h
    · rw [he]; simp
  simp only [new_map_rooms_and_corridors]
  rw [show (30 : Nat) = 29 + 1 from rfl, genLoop_succ]
  rcases hg : genStep [] (List.replicate (80 * 50) TileType.Wall)
      { stream := s, pos := 0 } with ⟨r2, m2, g2⟩
  rcases genStep_of_nil [] (List.replicate (80 * 50) TileType.Wall)
      { stream := s, pos := 0 } rfl with ⟨r, hr⟩
  rw [hg] at hr
  apply genLoop_inv (P := fun l => l ≠ []) hstep 29 r2 m2 g2
  rw [show r2 = (r2, m2, g2).1 from rfl, hr]
  simp

/-- A guarded tunnel write never changes the grid length: in-range writes
are List.set (length-preserving) and out-of-range writes are dropped. -/
lemma tunnelWrite_length (m : List TileType) (i : Nat) :
    (tunnelWrite m i).length = m.length := by
  unfold tunnelWrite
  split
  · exact List.length_set m i TileType.Floor
  · rfl

/-- A guarded tunnel write never touches cell 0 (the guard requires a
strictly positive index). -/
lemma tunnelWrite_get0 (m : List TileType) (i : Nat) :
    (tunnelWrite m i).get? 0 = m.get? 0 := by
  unfold tunnelWrite
  split
  · rename_i hg
    exact List.get?_set_ne TileType.Floor m (Nat.ne_of_gt hg.1)
  · rfl

/-- A guarded tunnel write keeps Floor cells Floor: it only ever writes
Floor. -/
lemma tunnelWrite_floor_pres (m : List TileType) (i j : Nat)
    (h : m.get? i = some TileType.Floor) :
    (tunnelWrite m j).get? i = some TileType.Floor := by
  unfold tunnelWrite
  split
  · by_cases hji : j = i
    · subst hji
      rw [List.get?_set_eq, h]
      rfl
    · rw [List.get?_set_ne TileType.Floor m hji]
      exact h
  · exact h

/-- The tunnel loop preserves the grid length. -/
lemma intFor_tunnel_length (g : Int → Nat) :
    ∀ (n : Nat) (a : Int) (m : List TileType),
      (intFor (fun acc v => tunnelWrite acc (g v)) n a m).length = m.length := by
  intro n
  induction n with
  | zero => intro a m; rfl
  | succ k ih =>
    intro a m
    rw [show intFor (fun acc v => tunnelWrite acc (g v)) (k + 1) a m =
          intFor (fun acc v => tunnelWrite acc (g v)) k (a + 1)
            (tunnelWrite m (g a)) from rfl]
    rw [ih (a + 1) (tunnelWrite m (g a))]
    exact tunnelWrite_length m (g a)

/-- The tunnel loop never touches cell 0. -/
lemma intFor_tunnel_get0 (g : Int → Nat) :
    ∀ (n : Nat) (a : Int) (m : List TileType),
      (intFor (fun acc v => tunnelWrite acc (g v)) n a m).get? 0 = m.get? 0 := by
  intro n
  induction n with
  | zero => intro a m; rfl
  | succ k ih =>
    intro a m
    rw [show intFor (fun acc v => tunnelWrite acc (g v)) (k + 1) a m =
          intFor (fun acc v => tunnelWrite acc (g v)) k (a + 1)
            (tunnelWrite m (g a)) from rfl]
    rw [ih (a + 1) (tunnelWrite m (g a))]
    exact tunnelWrite_get0 m (g a)

/-- The tunnel loop keeps Floor cells Floor. -/
lemma intFor_tunnel_pres (g : Int → Nat) :
    ∀ (n : Nat) (a : Int) (m : List TileType) (i : Nat),
      m.get? i = some TileType.Floor →
      (intFor (fun acc v => tunnelWrite acc (g v)) n a m).get? i =
        some TileType.Floor := by
  intro n
  induction n with
  | zero => intro a m i h; exact h
  | succ k ih =>
    intro a m i h
    rw [show intFor (fun acc v => tunnelWrite acc (g v)) (k + 1) a m =
          intFor (fun acc v => tunnelWrite acc (g v)) k (a + 1)
            (tunnelWrite m (g a)) from rfl]
    exact ih (a + 1) (tunnelWrite m (g a)) i (tunnelWrite_floor_pres m i (g a) h)

/-- If the loop visits x and its index is strictly positive and within the
4000-cell grid, the cell ends up Floor. -/
lemma intFor_tunnel_write (g : Int → Nat) :
    ∀ (n : Nat) (a : Int) (m : List TileType) (x : Int),
      a ≤ x → x < a + (n : Int) → 0 < g x → g x < 80 * 50 →
      m.length = 80 * 50 →
      (intFor (fun acc v => tunnelWrite acc (g v)) n a m).get? (g x) =
        some TileType.Floor := by
  intro n
  induction n with
  | zero =>
    intro a m x h1 h2 _ _ _
    omega
  | succ k ih =>
    intro a m x h1 h2 hpos hlt hm
    rw [show intFor (fun acc v => tunnelWrite acc (g v)) (k + 1) a m =
          intFor (fun acc v => tunnelWrite acc (g v)) k (a + 1)
            (tunnelWrite m (g a)) from rfl]
    by_cases hax : x = a
    · subst hax
      apply intFor_tunnel_pres
      unfold tunnelWrite
      rw [if_pos ⟨hpos, hlt⟩]
      exact List.get?_set_eq_of_lt TileType.Floor (by rw [hm]; exact hlt)
    · have hlen2 : (tunnelWrite m (g a)).length = 80 * 50 := by
        rw [tunnelWrite_length]; exact hm
      exact ih (a + 1) (tunnelWrite m (g a)) x (by omega)
        (by push_cast at h2 ⊢; omega) hpos hlt hlen2

/-- C4 counterexample: a horizontal or vertical tunnel covering x = y = 0
produces the flat index 0, which the claim puts inside the committed range
[0, 4000), yet the write is dropped (the source guard is idx > 0) and the
cell stays Wall. -/
theorem tunnel_drops_index_zero :
    xy_idx 0 0 = 0 ∧
    (apply_horizontal_tunnel (List.replicate (80 * 50) TileType.Wall) 0 0 0).get? 0 =
      some TileType.Wall ∧
    (apply_vertical_tunnel (List.replicate (80 * 50) TileType.Wall) 0 0 0).get? 0 =
      some TileType.Wall := by
  exact ⟨by decide, by decide, by decide⟩

/-- C4 as amended: each corridor-carving write in apply_horizontal_tunnel
and apply_vertical_tunnel is committed exactly when its flat index is
strictly positive and below the array length (0 < idx < 4000): such cells
end up Floor; cell 0 is never modified even when the loop covers it, and
out-of-range writes are silently dropped (the functions are total and
length-preserving). -/
theorem tunnel_write_bounds (m : List TileType) (x1 x2 y1 y2 x y : Int)
    (hm : m.length = 80 * 50) :
    (min x1 x2 ≤ x → x ≤ max x1 x2 → 0 < xy_idx x y → xy_idx x y < 80 * 50 →
      (apply_horizontal_tunnel m x1 x2 y).get? (xy_idx x y) =
        some TileType.Floor) ∧
    (min y1 y2 ≤ y → y ≤ max y1 y2 → 0 < xy_idx x y → xy_idx x y < 80 * 50 →
      (apply_vertical_tunnel m y1 y2 x).get? (xy_idx x y) =
        some TileType.Floor) ∧
    (apply_horizontal_tunnel m x1 x2 y).get? 0 = m.get? 0 ∧
    (apply_vertical_tunnel m y1 y2 x).get? 0 = m.get? 0 ∧
    (apply_horizontal_tunnel m x1 x2 y).length = m.length ∧
    (apply_vertical_tunnel m y1 y2 x).length = m.length := by
  refine ⟨?_, ?_, ?_, ?_, ?_, ?_⟩
  · intro hxl hxr hpos hlt
    unfold apply_horizontal_tunnel foldRangeIncl
    apply intFor_tunnel_write (fun v => xy_idx v y) _ _ m x hxl ?_ hpos hlt hm
    have hmm : min x1 x2 ≤ max x1 x2 := min_le_max
    rw [Int.toNat_of_nonneg (by omega)]
    omega
  · intro hyl hyr hpos hlt
    unfold apply_vertical_tunnel foldRangeIncl
    apply intFor_tunnel_write (fun v => xy_idx x v) _ _ m y hyl ?_ hpos hlt hm
    have hmm : min y1 y2 ≤ max y1 y2 := min_le_max
    rw [Int.toNat_of_nonneg (by omega)]
    omega
  · exact intFor_tunnel_get0 (fun v => xy_idx v y) _ _ m
  · exact intFor_tunnel_get0 (fun v => xy_idx x v) _ _ m
  · exact intFor_tunnel_length (fun v => xy_idx v y) _ _ m
  · exact intFor_tunnel_length (fun v => xy_idx x v) _ _ m

/-- Concrete instance of C4 as amended: a horizontal tunnel over
x ∈ [3,6] at y = 2 floors the cell with index xy_idx(4,2) = 164, and a
vertical tunnel over y ∈ [3,6] at x = 2 floors the cell with index
xy_idx(2,4) = 322. -/
theorem tunnel_write_bounds_witness :
    (apply_horizontal_tunnel (List.replicate (80 * 50) TileType.Wall) 3 6 2).get?
      (xy_idx 4 2) = some TileType.Floor ∧
    (apply_vertical_tunnel (List.replicate (80 * 50) TileType.Wall) 3 6 2).get?
      (xy_idx 2 4) = some TileType.Floor := by
  constructor
  · exact (tunnel_write_bounds (List.replicate (80 * 50) TileType.Wall) 3 6 0 0 4 2
      (List.length_replicate (80 * 50) TileType.Wall)).1
      (by decide) (by decide) (by decide) (by decide)
  · exact (tunnel_write_bounds (List.replicate (80 * 50) TileType.Wall) 0 0 3 6 2 4
      (List.length_replicate (80 * 50) TileType.Wall)).2.1
      (by decide) (by decide) (by decide) (by decide)

/-- Concrete instance of C7: with the player at (5,5) and tile (6,5) a
Wall, a Right key leaves the world unchanged; over the all-Floor grid the
same key moves the player to (6,5) (the clamped coordinates evaluate to 6
and 5). -/
theorem player_move_checks_destination_witness :
    player_input (some VirtualKeyCode.Right)
        { entities := [e5], grid := mWall65 } =
      some { entities := [e5], grid := mWall65 } ∧
    player_input (some VirtualKeyCode.Right)
        { entities := [e5], grid := floorGrid } =
      some { entities :=
               [{ e5 with pos := some { x := min 79 (max 0 ((5 : Int) + 1)),
                                        y := min 49 (max 0 ((5 : Int) + 0)) } }],
             grid := floorGrid } ∧
    min 79 (max 0 ((5 : Int) + 1)) = 6 ∧
    min 49 (max 0 ((5 : Int) + 0)) = 5 := by
  refine ⟨?_, ?_, by decide, by decide⟩
  · exact (player_move_checks_destination e5 { x := 5, y := 5 } mWall65
      VirtualKeyCode.Right 1 0 (Or.inr (Or.inl ⟨rfl, rfl, rfl⟩)) rfl rfl).1
      (by decide)
  · exact (player_move_checks_destination e5 { x := 5, y := 5 } floorGrid
      VirtualKeyCode.Right 1 0 (Or.inr (Or.inl ⟨rfl, rfl, rfl⟩)) rfl rfl).2
      (by decide)

/-- C1 refutation, evidencing the corridor-call slip: under the source s0
the generator accepts rooms with centers (3,3) and (49,43) and takes the
horizontal-first branch, whose second call
`apply_horizontal_tunnel(prev_y, prev_y, new_x)` writes the transposed
cell (prev_y, new_x) = (3, 49) — a bottom-border cell — as Floor, so the
border-all-Wall invariant fails. -/
theorem generator_floors_bottom_border :
    (new_map_rooms_and_corridors s0).2.get? (xy_idx 3 49) =
      some TileType.Floor := by decide

/-- C2 refutation, evidencing the corridor-call slip: under the source s0
two rooms with centers (3,3) and (49,43) are accepted and the
horizontal-first branch is taken, yet the cell (49,20) — which lies on the
claimed vertical leg joining x = 49 between y = 3 and y = 43 — stays Wall:
the second tunnel call carves the single transposed cell (3,49) instead of
the vertical leg, so the two centers are not joined. -/
theorem corridor_leg_not_carved :
    (new_map_rooms_and_corridors s0).1 =
      [Rect.mk 0 0 6 6, Rect.mk 46 40 52 46] ∧
    (Rect.mk 0 0 6 6).center = (3, 3) ∧
    (Rect.mk 46 40 52 46).center = (49, 43) ∧
    (new_map_rooms_and_corridors s0).2.get? (xy_idx 49 20) =
      some TileType.Wall := by
  exact ⟨by decide, by decide, by decide, by decide⟩

end Roguelike

